import Mathlib

/-!
Verification of the interview session state machine of the
`openinterviewer` repository.  The definitions below are a shallow
embedding of the TypeScript source: the zustand store actions of
`src/store.ts` become pure functions on an explicit `ChatState`, the
turn handler of `src/components/InterviewChat.tsx` becomes a pure
function threading that state, the JSON-recovery helper of
`src/lib/ai.ts` becomes a function on character lists, and the
server-side save / aggregate-synthesis routes of
`src/app/api/interviews/save/route.ts` become total functions returning
`Except`.  `Date.now()` values are passed in as explicit parameters.
-/

namespace OpenInterviewer

/-- Interview phases, `InterviewPhase` from `src/types.ts`. -/
inductive InterviewPhase
  | background
  | coreQuestions
  | exploration
  | feedback
  | wrapUp
deriving DecidableEq, Repr

/-- The string literal each phase is written as in the TypeScript source;
these strings key the `messagesPerTopic` record. -/
def phaseKey : InterviewPhase → String
  | InterviewPhase.background => "background"
  | InterviewPhase.coreQuestions => "core-questions"
  | InterviewPhase.exploration => "exploration"
  | InterviewPhase.feedback => "feedback"
  | InterviewPhase.wrapUp => "wrap-up"

/-- Extraction status of a profile field, `ProfileFieldStatus` from `src/types.ts`. -/
inductive ProfileFieldStatus
  | pending
  | extracted
  | vague
  | refused
deriving DecidableEq, Repr

/-- A researcher-defined profile field, `ProfileField` from `src/types.ts`. -/
structure ProfileField where
  id : String
  label : String
  extractionHint : String
  required : Bool
  options : Option (List String)
deriving DecidableEq, Repr

/-- A per-session value of one profile field, `ProfileFieldValue` from `src/types.ts`. -/
structure ProfileFieldValue where
  fieldId : String
  value : Option String
  status : ProfileFieldStatus
  extractedAt : Option Nat
deriving DecidableEq, Repr

/-- The participant profile, `ParticipantProfile` from `src/types.ts`. -/
structure ParticipantProfile where
  id : String
  fields : List ProfileFieldValue
  rawContext : String
  timestamp : Nat
deriving DecidableEq, Repr

/-- Question/phase progress, `QuestionProgress` from `src/types.ts`. -/
structure QuestionProgress where
  questionsAsked : List Nat
  total : Nat
  currentPhase : InterviewPhase
  isComplete : Bool
deriving DecidableEq, Repr

/-- Message roles from `InterviewMessage` in `src/types.ts`. -/
inductive MessageRole
  | user
  | ai
  | system
deriving DecidableEq, Repr

/-- A transcript message, `InterviewMessage` from `src/types.ts`. -/
structure InterviewMessage where
  id : String
  role : MessageRole
  content : String
  timestamp : Nat
deriving DecidableEq, Repr

/-- Behavior metrics, `BehaviorData` from `src/types.ts`.  The TypeScript
`Record<string, number>` maps are modelled as association lists with
JavaScript object-spread update semantics. -/
structure BehaviorData where
  timePerTopic : List (String × Nat)
  messagesPerTopic : List (String × Nat)
  topicsExplored : List String
  contradictions : List String
deriving DecidableEq, Repr

/-- Source tag of a context entry (`appendContext` in `src/store.ts`). -/
inductive ContextSource
  | voice
  | text
  | system
deriving DecidableEq, Repr

/-- A free-text context entry, `ContextEntry` from `src/types.ts`. -/
structure ContextEntry where
  id : String
  text : String
  source : ContextSource
  timestamp : Nat
deriving DecidableEq, Repr

/-- The slice of the zustand store (`src/store.ts`) that the interview
session actions read and write. -/
structure ChatState where
  participantProfile : Option ParticipantProfile
  questionProgress : QuestionProgress
  interviewHistory : List InterviewMessage
  behaviorData : BehaviorData
  contextEntries : List ContextEntry
deriving DecidableEq, Repr

/-- Read a key from a JavaScript record, `obj[k] || 0` (first matching
key; JavaScript objects cannot hold duplicate keys). -/
def recGet (m : List (String × Nat)) (k : String) : Nat :=
  match m with
  | [] => 0
  | (k', v) :: rest => if k' = k then v else recGet rest k

/-- Write a key into a JavaScript record by object spread,
`{...obj, [k]: v}`: an existing key is overwritten in place, a new key
is appended. -/
def recSet (m : List (String × Nat)) (k : String) (v : Nat) : List (String × Nat) :=
  match m with
  | [] => [(k, v)]
  | (k', v') :: rest => if k' = k then (k, v) :: rest else (k', v') :: recSet rest k v

/-- JavaScript whitespace (the ASCII part of `\s`, which also underlies
`String.prototype.trim`). -/
def isJsWs (c : Char) : Bool :=
  c = ' ' || c = '\t' || c = '\n' || c = '\r' || c = Char.ofNat 11 || c = Char.ofNat 12

/-- JavaScript `String.prototype.trim` on a character list. -/
def jsTrim (l : List Char) : List Char :=
  ((l.dropWhile isJsWs).reverse.dropWhile isJsWs).reverse

/-- JavaScript `String.prototype.trim`. -/
def jsTrimString (s : String) : String :=
  String.mk (jsTrim s.toList)

/-- The body of the `updateProfileField` field map in `src/store.ts`
(lines 223-227): overwrite value, status and extraction timestamp of
every entry whose `fieldId` matches. -/
def applyUpdate (fieldId : String) (value : Option String) (status : ProfileFieldStatus)
    (now : Nat) (fields : List ProfileFieldValue) : List ProfileFieldValue :=
  fields.map fun f =>
    if f.fieldId = fieldId then
      { f with value := value, status := status, extractedAt := some now }
    else f

/-- Result of `updateProfileField` on a single present profile:
rewrite the matching fields. -/
def profWithUpdate (fieldId : String) (value : Option String) (status : ProfileFieldStatus)
    (now : Nat) (prof : ParticipantProfile) : ParticipantProfile :=
  { prof with fields := applyUpdate fieldId value status now prof.fields }

/-- Store action `initializeProfile` (`src/store.ts` lines 199-216):
one pending `ProfileFieldValue` per schema field, fresh progress. -/
def initializeProfile (schema : List ProfileField) (pid : String) (now : Nat)
    (s : ChatState) : ChatState :=
  let prof : ParticipantProfile :=
    { id := pid
      fields := schema.map fun field =>
        { fieldId := field.id, value := none
          status := ProfileFieldStatus.pending, extractedAt := none }
      rawContext := ""
      timestamp := now }
  { s with
    participantProfile := some prof
    questionProgress :=
      { questionsAsked := [], total := 0
        currentPhase := InterviewPhase.background, isComplete := false } }

/-- Store action `updateProfileField` (`src/store.ts` lines 218-230). -/
def updateProfileField (fieldId : String) (value : Option String)
    (status : ProfileFieldStatus) (now : Nat) (s : ChatState) : ChatState :=
  match s.participantProfile with
  | none => s
  | some prof =>
    let prof' := { prof with fields := applyUpdate fieldId value status now prof.fields }
    { s with participantProfile := some prof' }

/-- Store action `setProfileRawContext` (`src/store.ts` lines 232-240). -/
def setProfileRawContext (context : String) (s : ChatState) : ChatState :=
  match s.participantProfile with
  | none => s
  | some prof =>
    let prof' := { prof with rawContext := context }
    { s with participantProfile := some prof' }

/-- Store action `setInterviewPhase` (`src/store.ts` lines 242-247). -/
def setInterviewPhase (phase : InterviewPhase) (s : ChatState) : ChatState :=
  { s with questionProgress := { s.questionProgress with currentPhase := phase } }

/-- Store action `markQuestionAsked` (`src/store.ts` lines 249-258). -/
def markQuestionAsked (questionIndex : Nat) (s : ChatState) : ChatState :=
  if s.questionProgress.questionsAsked.contains questionIndex then s
  else
    { s with questionProgress :=
        { s.questionProgress with
          questionsAsked := s.questionProgress.questionsAsked ++ [questionIndex] } }

/-- Store action `completeInterview` (`src/store.ts` lines 260-266). -/
def completeInterview (s : ChatState) : ChatState :=
  { s with questionProgress :=
      { s.questionProgress with
        currentPhase := InterviewPhase.wrapUp, isComplete := true } }

/-- Store action `addMessage` (`src/store.ts` lines 268-281): append to
the transcript and bump the per-phase message counter, keyed by the
phase current at the moment of the call. -/
def addMessage (message : InterviewMessage) (s : ChatState) : ChatState :=
  { s with
    interviewHistory := s.interviewHistory ++ [message]
    behaviorData :=
      { s.behaviorData with
        messagesPerTopic :=
          recSet s.behaviorData.messagesPerTopic
            (phaseKey s.questionProgress.currentPhase)
            (recGet s.behaviorData.messagesPerTopic
              (phaseKey s.questionProgress.currentPhase) + 1) } }

/-- Store action `appendContext` (`src/store.ts` lines 283-291); the
generated id and timestamp are passed in explicitly. -/
def appendContext (text : String) (source : ContextSource) (cid : String) (now : Nat)
    (s : ChatState) : ChatState :=
  { s with contextEntries := s.contextEntries ++
      [{ id := cid, text := jsTrimString text, source := source, timestamp := now }] }

/-- Sample participant profile used to instantiate theorems on concrete data. -/
def sampleProfile : ParticipantProfile :=
  { id := "p-1"
    fields :=
      [ { fieldId := "role", value := none, status := ProfileFieldStatus.pending, extractedAt := none }
      , { fieldId := "ai_usage", value := none, status := ProfileFieldStatus.pending, extractedAt := none } ]
    rawContext := ""
    timestamp := 10 }

/-- Sample in-progress session state. -/
def sampleState : ChatState :=
  { participantProfile := some sampleProfile
    questionProgress :=
      { questionsAsked := [0, 2], total := 3
        currentPhase := InterviewPhase.coreQuestions, isComplete := false }
    interviewHistory := []
    behaviorData :=
      { timePerTopic := [], messagesPerTopic := [("background", 2)]
        topicsExplored := [], contradictions := [] }
    contextEntries := [] }

/-- Sample completed session state (after `completeInterview`). -/
def doneState : ChatState :=
  { participantProfile := some sampleProfile
    questionProgress :=
      { questionsAsked := [1], total := 3
        currentPhase := InterviewPhase.wrapUp, isComplete := true }
    interviewHistory := []
    behaviorData :=
      { timePerTopic := [], messagesPerTopic := [("wrap-up", 1)]
        topicsExplored := [], contradictions := [] }
    contextEntries := [] }

/-- One declared profile update in the structured AI response
(`AIInterviewResponse.profileUpdates` in `src/types.ts`). -/
structure ProfileUpdate where
  fieldId : String
  value : Option String
  status : ProfileFieldStatus
deriving DecidableEq, Repr

/-- The structured AI response, `AIInterviewResponse` from `src/types.ts`. -/
structure AIInterviewResponse where
  message : String
  questionAddressed : Option Nat
  phaseTransition : Option InterviewPhase
  profileUpdates : List ProfileUpdate
  shouldConclude : Bool
deriving DecidableEq, Repr

/-- The fixed fallback message of the catch branch of `handleSend`
(`src/components/InterviewChat.tsx` lines 175-183). -/
def fallbackMessage : String := "I appreciate you sharing that. Could you tell me more?"

/-- The profile-updates loop of `handleSend`
(`src/components/InterviewChat.tsx` lines 139-143). -/
def applyProfileUpdates (r : AIInterviewResponse) (now : Nat) (s : ChatState) : ChatState :=
  r.profileUpdates.foldl (fun st u => updateProfileField u.fieldId u.value u.status now st) s

/-- The profile-updates block of `handleSend`
(`src/components/InterviewChat.tsx` lines 139-150).  The phase and the
existing raw context are read from the React render closure, i.e. from
the pre-turn state `s0`. -/
def applyTurnProfileStep (s0 : ChatState) (text : String) (r : AIInterviewResponse)
    (now : Nat) (s : ChatState) : ChatState :=
  if r.profileUpdates ≠ [] then
    let s3 := applyProfileUpdates r now s
    if s0.questionProgress.currentPhase = InterviewPhase.background then
      let existing := (s0.participantProfile.map ParticipantProfile.rawContext).getD ""
      setProfileRawContext (existing ++ (if existing ≠ "" then "\n" else "") ++ text) s3
    else s3
  else s

/-- The phase-transition block of `handleSend`
(`src/components/InterviewChat.tsx` lines 152-155). -/
def applyPhaseStep (r : AIInterviewResponse) (s : ChatState) : ChatState :=
  match r.phaseTransition with
  | some p => setInterviewPhase p s
  | none => s

/-- The question-progress block of `handleSend`
(`src/components/InterviewChat.tsx` lines 157-160). -/
def applyQuestionStep (r : AIInterviewResponse) (s : ChatState) : ChatState :=
  match r.questionAddressed with
  | some i => markQuestionAsked i s
  | none => s

/-- The conclusion block of `handleSend`
(`src/components/InterviewChat.tsx` lines 171-174). -/
def applyConcludeStep (r : AIInterviewResponse) (s : ChatState) : ChatState :=
  if r.shouldConclude then completeInterview s else s

/-- The turn handler `handleSend` of `src/components/InterviewChat.tsx`
(lines 105-187) as a pure state transformer.  `resp = some r` is the
successful AI call, `resp = none` the catch branch.  Generated message
ids and timestamps are explicit parameters. -/
def handleSend (s0 : ChatState) (text : String) (resp : Option AIInterviewResponse)
    (userMsgId ctxId aiMsgId : String) (tUser tCtx tAi now : Nat) : ChatState :=
  if jsTrimString text = "" then s0
  else
    let userMsg : InterviewMessage :=
      { id := userMsgId, role := MessageRole.user, content := text, timestamp := tUser }
    let s1 := addMessage userMsg s0
    let s2 := appendContext text ContextSource.text ctxId tCtx s1
    match resp with
    | some r =>
      let s6 := applyQuestionStep r (applyPhaseStep r (applyTurnProfileStep s0 text r now s2))
      let s7 := addMessage
        { id := aiMsgId, role := MessageRole.ai, content := r.message, timestamp := tAi } s6
      applyConcludeStep r s7
    | none =>
      addMessage
        { id := aiMsgId, role := MessageRole.ai, content := fallbackMessage, timestamp := tAi } s2

/-- The phase under which the AI message of a turn is counted: the
transition target if the response declares one, the pre-turn phase
otherwise (also on AI failure). -/
def postPhase (s0 : ChatState) (resp : Option AIInterviewResponse) : InterviewPhase :=
  match resp with
  | some r => r.phaseTransition.getD s0.questionProgress.currentPhase
  | none => s0.questionProgress.currentPhase

/-- Concrete AI response used to instantiate turn-level theorems. -/
def c5resp : AIInterviewResponse :=
  { message := "Let us explore that further."
    questionAddressed := none
    phaseTransition := some InterviewPhase.exploration
    profileUpdates := []
    shouldConclude := false }

/-- One theme of a per-session synthesis (`SynthesisResult.themes` in `src/types.ts`). -/
structure Theme where
  theme : String
  evidence : String
  frequency : Nat
deriving DecidableEq, Repr

/-- Per-session synthesis, `SynthesisResult` from `src/types.ts`. -/
structure SynthesisResult where
  statedPreferences : List String
  revealedPreferences : List String
  themes : List Theme
  contradictions : List String
  keyInsights : List String
  bottomLine : String
deriving DecidableEq, Repr

/-- Interview status literals from `StoredInterview` in `src/types.ts`. -/
inductive InterviewStatus
  | inProgress
  | completed
deriving DecidableEq, Repr

/-- The persisted session record, `StoredInterview` from `src/types.ts`. -/
structure StoredInterview where
  id : String
  studyId : String
  studyName : String
  participantProfile : ParticipantProfile
  transcript : List InterviewMessage
  synthesis : Option SynthesisResult
  behaviorData : BehaviorData
  createdAt : Nat
  completedAt : Nat
  status : InterviewStatus
deriving DecidableEq, Repr

/-- The request body of POST /api/interviews/save, typed in the route as
`Partial<StoredInterview>`: every field may be absent. -/
structure ClientInterview where
  id : Option String
  studyId : Option String
  studyName : Option String
  participantProfile : Option ParticipantProfile
  transcript : Option (List InterviewMessage)
  synthesis : Option (Option SynthesisResult)
  behaviorData : Option BehaviorData
  createdAt : Option Nat
  completedAt : Option Nat
  status : Option InterviewStatus
deriving DecidableEq, Repr

/-- Result of `verifyParticipantToken` as the route reads it: whether the
caller is an admin session and which study the token is tied to. -/
structure SaveAuth where
  isAdmin : Bool
  studyId : Option String
deriving DecidableEq, Repr

/-- JavaScript truthiness of an optional string (absent and "" are falsy). -/
def truthyStr : Option String → Bool
  | none => false
  | some s => s ≠ ""

/-- Character class of the route's id regex `[a-zA-Z0-9-]`. -/
def isIdChar (c : Char) : Bool :=
  c.isAlpha || c.isDigit || c = '-'

/-- The route's id format test, regex `^[a-zA-Z0-9-]+$`. -/
def regexIdOk (s : String) : Bool :=
  s ≠ "" && s.toList.all isIdChar

/-- Rejection reasons of POST /api/interviews/save
(`src/app/api/interviews/save/route.ts`). -/
inductive SaveError
  | studyMismatch
  | missingFields
  | emptyTranscript
  | badStudyIdFormat
  | badIdFormat
deriving DecidableEq, Repr

/-- The server-side construction of the persisted record
(`src/app/api/interviews/save/route.ts` lines 64-91): client data is
copied for content fields, but `completedAt` and `status` are always
server-assigned and `createdAt` is accepted only when truthy and in the
server's past. -/
def buildInterview (clientData : ClientInterview) (now : Nat) : StoredInterview :=
  let defaultProfile : ParticipantProfile :=
    { id := clientData.id.getD "", fields := [], rawContext := "", timestamp := now }
  { id := clientData.id.getD ""
    studyId := clientData.studyId.getD ""
    studyName := if truthyStr clientData.studyName then clientData.studyName.getD "" else "Unknown Study"
    participantProfile := clientData.participantProfile.getD defaultProfile
    transcript := clientData.transcript.getD []
    synthesis := clientData.synthesis.getD none
    behaviorData := clientData.behaviorData.getD
      { timePerTopic := [], messagesPerTopic := [], topicsExplored := [], contradictions := [] }
    createdAt :=
      match clientData.createdAt with
      | some t => if t ≠ 0 ∧ t < now then t else now
      | none => now
    completedAt := now
    status := InterviewStatus.completed }

/-- The validation and construction part of POST /api/interviews/save
(`src/app/api/interviews/save/route.ts` lines 10-91), up to the storage
write. -/
def savePOST (auth : SaveAuth) (clientData : ClientInterview) (now : Nat) :
    Except SaveError StoredInterview :=
  if ¬ auth.isAdmin ∧ truthyStr auth.studyId ∧ truthyStr clientData.studyId ∧
      auth.studyId ≠ clientData.studyId then
    Except.error SaveError.studyMismatch
  else if ¬ (truthyStr clientData.id ∧ truthyStr clientData.studyId ∧ clientData.transcript.isSome) then
    Except.error SaveError.missingFields
  else if (clientData.transcript.getD []).length = 0 then
    Except.error SaveError.emptyTranscript
  else if ¬ regexIdOk (clientData.studyId.getD "") then
    Except.error SaveError.badStudyIdFormat
  else if ¬ regexIdOk (clientData.id.getD "") then
    Except.error SaveError.badIdFormat
  else
    Except.ok (buildInterview clientData now)

/-- The quorum gate of the aggregate-synthesis route
(POST /api/synthesis/aggregate, lines 199-218 of the route file): fewer
than two stored interviews, or fewer than two carrying a non-null
per-session synthesis, is rejected with an insufficient-data error. -/
def aggregateCheck (interviews : List StoredInterview) :
    Except String (List SynthesisResult) :=
  if interviews.length < 2 then
    Except.error "Need at least 2 interviews to generate aggregate synthesis"
  else if (interviews.filterMap StoredInterview.synthesis).length < 2 then
    Except.error "Need at least 2 interviews with synthesis results"
  else
    Except.ok (interviews.filterMap StoredInterview.synthesis)

/-- Concrete auth used to instantiate save-route theorems. -/
def sampleAuth : SaveAuth := { isAdmin := false, studyId := some "study-1" }

/-- Concrete valid client payload used to instantiate save-route theorems. -/
def sampleClient : ClientInterview :=
  { id := some "iv-1"
    studyId := some "study-1"
    studyName := some "Adaptive Self"
    participantProfile := some sampleProfile
    transcript := some [{ id := "m1", role := MessageRole.user, content := "hello", timestamp := 3 }]
    synthesis := none
    behaviorData := none
    createdAt := some 900
    completedAt := some 123
    status := some InterviewStatus.inProgress }

/-- Concrete per-session synthesis used to instantiate aggregate theorems. -/
def sampleSynth : SynthesisResult :=
  { statedPreferences := ["clarity"]
    revealedPreferences := []
    themes := [{ theme := "identity", evidence := "quotes", frequency := 2 }]
    contradictions := []
    keyInsights := ["insight"]
    bottomLine := "One sentence." }

/-- First concrete stored interview with a synthesis. -/
def di1 : StoredInterview :=
  { id := "iv-1", studyId := "study-1", studyName := "Adaptive Self"
    participantProfile := sampleProfile
    transcript := [{ id := "m1", role := MessageRole.user, content := "hello", timestamp := 3 }]
    synthesis := some sampleSynth
    behaviorData := { timePerTopic := [], messagesPerTopic := [], topicsExplored := [], contradictions := [] }
    createdAt := 1, completedAt := 2, status := InterviewStatus.completed }

/-- Second concrete stored interview with a synthesis. -/
def di2 : StoredInterview :=
  { di1 with id := "iv-2", createdAt := 3, completedAt := 4 }

/-- Backtick character. -/
def btick : Char := Char.ofNat 96

/-- Opening brace character. -/
def obrace : Char := Char.ofNat 123

/-- Closing brace character. -/
def cbrace : Char := Char.ofNat 125

/-- The literal part of the code-fence regex with language tag. -/
def fenceJsonTok : List Char := [btick, btick, btick, 'j', 's', 'o', 'n']

/-- The literal part of the bare code-fence regex. -/
def fenceTok : List Char := [btick, btick, btick]

/-- Fuel-indexed worker for the global regex replacement of a literal
token followed by a whitespace run (JavaScript
`text.replace(/tok\s*`+`/g, "")` for a literal `tok`): scan left to
right, removing each occurrence of the token together with the
following maximal whitespace run.  The fuel bounds the recursion; one
unit per consumed character is always sufficient. -/
def stripRunsF (tok : List Char) : Nat → List Char → List Char
  | 0, l => l
  | _ + 1, [] => []
  | fuel + 1, c :: cs =>
    if (c :: cs).take tok.length = tok then
      stripRunsF tok fuel (((c :: cs).drop tok.length).dropWhile isJsWs)
    else
      c :: stripRunsF tok fuel cs

/-- Global replacement of `tok` plus trailing whitespace by nothing. -/
def stripRuns (tok : List Char) (l : List Char) : List Char :=
  stripRunsF tok l.length l

/-- The code-fence stripping and trimming prefix of `cleanJSON`
(`src/lib/ai.ts` line 142). -/
def cleanChars (l : List Char) : List Char :=
  jsTrim (stripRuns fenceTok (stripRuns fenceJsonTok l))

/-- The bracket-matching loop of `cleanJSON` (`src/lib/ai.ts` lines
148-153 and 157-162): walk the text keeping a signed depth that `oc`
increments and `cc` decrements, returning the prefix up to and
including the position where the depth reaches zero, or `none` when it
never does. -/
def takeBalanced (oc cc : Char) : List Char → Int → Option (List Char)
  | [], _ => none
  | ch :: rest, d =>
    let d1 := if ch = oc then d + 1 else if ch = cc then d - 1 else d
    if d1 = 0 then some [ch]
    else
      match takeBalanced oc cc rest d1 with
      | some span => some (ch :: span)
      | none => none

/-- `cleanJSON` from `src/lib/ai.ts` (lines 140-166): empty input yields
a fresh empty object source; otherwise strip code fences and trim, try
the bracket scan from the first square bracket when it precedes any
brace, then the brace scan from the first brace, and fall back to the
whole cleaned text. -/
def cleanJSON (text : String) : String :=
  if text = "" then String.mk [obrace, cbrace]
  else
    let cs := cleanChars text.toList
    let fb := cs.findIdx? (fun c => c = '[')
    let fr := cs.findIdx? (fun c => c = obrace)
    let bracketSpan : Option (List Char) :=
      match fb, fr with
      | some i, some j => if i < j then takeBalanced '[' ']' (cs.drop i) 0 else none
      | some i, none => takeBalanced '[' ']' (cs.drop i) 0
      | none, _ => none
    match bracketSpan with
    | some span => String.mk span
    | none =>
      match fr with
      | some j =>
        match takeBalanced obrace cbrace (cs.drop j) 0 with
        | some span => String.mk span
        | none => String.mk cs
      | none => String.mk cs

/-- Specification-side description of the scan: the least positive `k`
such that the first `k` characters contain as many closers as openers
— i.e. the position of the matching balanced closing counterpart. -/
def firstBalanced (oc cc : Char) (l : List Char) : Option Nat :=
  (List.range (l.length + 1)).find?
    (fun k => decide (0 < k) && decide ((l.take k).count oc = (l.take k).count cc))

/-- Specification-side span: the prefix ending at the matching balanced
closing counterpart, when one exists. -/
def specSpan (oc cc : Char) (l : List Char) : Option (List Char) :=
  (firstBalanced oc cc l).map (fun k => l.take k)

/-- Modelled from the spec, amended: `cleanJSON` restated with the
balanced-span scans described declaratively (shortest prefix on which
the counts of the chosen opener and closer agree), to be compared with
the implementation-shaped `cleanJSON`. -/
def cleanJSONSpec (text : String) : String :=
  if text = "" then String.mk [obrace, cbrace]
  else
    let cs := cleanChars text.toList
    let fb := cs.findIdx? (fun c => c = '[')
    let fr := cs.findIdx? (fun c => c = obrace)
    let bracketSpan : Option (List Char) :=
      match fb, fr with
      | some i, some j => if i < j then specSpan '[' ']' (cs.drop i) else none
      | some i, none => specSpan '[' ']' (cs.drop i)
      | none, _ => none
    match bracketSpan with
    | some span => String.mk span
    | none =>
      match fr with
      | some j =>
        match specSpan obrace cbrace (cs.drop j) with
        | some span => String.mk span
        | none => String.mk cs
      | none => String.mk cs

theorem recGet_recSet_self (m : List (String × Nat)) (k : String) (v : Nat) :
    recGet (recSet m k v) k = v := by
  induction m with
  | nil => simp [recGet, recSet]
  | cons hd tl ih =>
    obtain ⟨k0, v0⟩ := hd
    by_cases h : k0 = k
    · subst h
      simp [recGet, recSet]
    · simp only [recSet, if_neg h]
      simpa [recGet, h] using ih

theorem recGet_recSet_ne (m : List (String × Nat)) (k k0 : String) (v : Nat)
    (h : k ≠ k0) : recGet (recSet m k v) k0 = recGet m k0 := by
  induction m with
  | nil => simp [recGet, recSet, h]
  | cons hd tl ih =>
    obtain ⟨k1, v1⟩ := hd
    by_cases h1 : k1 = k
    · subst h1
      simp [recGet, recSet, h]
    · simp only [recSet, if_neg h1]
      by_cases h2 : k1 = k0
      · simp [recGet, h2]
      · simpa [recGet, h2] using ih

theorem updateProfileField_eq (fieldId : String) (value : Option String)
    (status : ProfileFieldStatus) (now : Nat) (s : ChatState) :
    updateProfileField fieldId value status now s =
      { s with participantProfile := s.participantProfile.map (profWithUpdate fieldId value status now) } := by
  obtain ⟨pp, qp, hist, bd, ce⟩ := s
  cases pp with
  | none => rfl
  | some prof => rfl

theorem applyUpdate_not_mem (fieldId : String) (value : Option String)
    (status : ProfileFieldStatus) (now : Nat) (fs : List ProfileFieldValue)
    (h : ∀ f ∈ fs, f.fieldId ≠ fieldId) :
    applyUpdate fieldId value status now fs = fs := by
  induction fs with
  | nil => rfl
  | cons f fs ih =>
    unfold applyUpdate at *
    simp only [List.map_cons]
    rw [if_neg (h f (List.mem_cons_self f fs))]
    rw [ih (fun g hg => h g (List.mem_cons_of_mem f hg))]

theorem markQuestionAsked_questionsAsked (s : ChatState) (i : Nat) :
    (markQuestionAsked i s).questionProgress.questionsAsked =
      if s.questionProgress.questionsAsked.contains i
      then s.questionProgress.questionsAsked
      else s.questionProgress.questionsAsked ++ [i] := by
  unfold markQuestionAsked
  split <;> simp_all

theorem markQuestionAsked_len_le (s : ChatState) (i : Nat) :
    s.questionProgress.questionsAsked.length ≤
      (markQuestionAsked i s).questionProgress.questionsAsked.length := by
  rw [markQuestionAsked_questionsAsked]
  split
  · exact le_refl _
  · simp

/-- C2: `markQuestionAsked` never removes an addressed index, the set of
addressed indices is non-decreasing in size across any sequence of
markings, and re-marking an index already present leaves the whole
state unchanged. -/
theorem c2_mark_monotone_idempotent (s : ChatState) (i : Nat) :
    s.questionProgress.questionsAsked ⊆
        (markQuestionAsked i s).questionProgress.questionsAsked ∧
    s.questionProgress.questionsAsked.length ≤
        (markQuestionAsked i s).questionProgress.questionsAsked.length ∧
    (∀ js : List Nat,
      s.questionProgress.questionsAsked.length ≤
        ((js.foldl (fun st j => markQuestionAsked j st) s)).questionProgress.questionsAsked.length) ∧
    (i ∈ s.questionProgress.questionsAsked → markQuestionAsked i s = s) := by
  refine ⟨?_, markQuestionAsked_len_le s i, ?_, ?_⟩
  · rw [markQuestionAsked_questionsAsked]
    split
    · exact fun a ha => ha
    · exact fun a ha => List.mem_append_left _ ha
  · intro js
    induction js generalizing s with
    | nil => exact le_refl _
    | cons j js ih =>
      exact le_trans (markQuestionAsked_len_le s j) (ih (markQuestionAsked j s))
  · intro hmem
    unfold markQuestionAsked
    have hc : s.questionProgress.questionsAsked.contains i = true := by
      simpa using hmem
    rw [if_pos hc]

theorem c2_witness :
    0 ∈ sampleState.questionProgress.questionsAsked ∧
      markQuestionAsked 0 sampleState = sampleState :=
  ⟨by decide, (c2_mark_monotone_idempotent sampleState 0).2.2.2 (by decide)⟩

/-- C1 counterexample: on a completed session state (isComplete = true)
the store actions still mutate the state: `setInterviewPhase` moves the
phase away from wrap-up, `markQuestionAsked` adds a new index, and
`updateProfileField` rewrites a profile field.  None of them is a no-op
and none is rejected. -/
theorem c1_counterexample :
    doneState.questionProgress.isComplete = true ∧
    (setInterviewPhase InterviewPhase.background doneState).questionProgress.currentPhase =
      InterviewPhase.background ∧
    setInterviewPhase InterviewPhase.background doneState ≠ doneState ∧
    (markQuestionAsked 0 doneState).questionProgress.questionsAsked = [1, 0] ∧
    markQuestionAsked 0 doneState ≠ doneState ∧
    updateProfileField "role" (some "engineer") ProfileFieldStatus.extracted 99 doneState ≠
      doneState := by
  decide

/-- C1 amended: completion is not sticky.  The store actions carry no
guard on `isComplete`: on a completed state `setInterviewPhase` still
sets the phase (while preserving `isComplete`), `markQuestionAsked`
still appends any not-yet-marked index, and `updateProfileField` still
rewrites the matching profile fields. -/
theorem c1_amended (s : ChatState) (p : InterviewPhase) (i : Nat) (fieldId : String)
    (value : Option String) (status : ProfileFieldStatus) (now : Nat)
    (hc : s.questionProgress.isComplete = true) :
    (setInterviewPhase p s).questionProgress.currentPhase = p ∧
    (setInterviewPhase p s).questionProgress.isComplete = true ∧
    (i ∉ s.questionProgress.questionsAsked →
      (markQuestionAsked i s).questionProgress.questionsAsked =
        s.questionProgress.questionsAsked ++ [i]) ∧
    (updateProfileField fieldId value status now s).participantProfile =
      s.participantProfile.map (profWithUpdate fieldId value status now) := by
  refine ⟨rfl, by simpa [setInterviewPhase] using hc, ?_, ?_⟩
  · intro hni
    rw [markQuestionAsked_questionsAsked]
    have hc : ¬ s.questionProgress.questionsAsked.contains i = true := by
      simpa using hni
    rw [if_neg hc]
  · rw [updateProfileField_eq]

theorem c1_amended_witness :
    doneState.questionProgress.isComplete = true ∧
    ((setInterviewPhase InterviewPhase.background doneState).questionProgress.currentPhase =
        InterviewPhase.background ∧
      (setInterviewPhase InterviewPhase.background doneState).questionProgress.isComplete = true ∧
      (0 ∉ doneState.questionProgress.questionsAsked →
        (markQuestionAsked 0 doneState).questionProgress.questionsAsked =
          doneState.questionProgress.questionsAsked ++ [0]) ∧
      (updateProfileField "role" (some "engineer") ProfileFieldStatus.extracted 99 doneState).participantProfile = doneState.participantProfile.map (profWithUpdate "role" (some "engineer") ProfileFieldStatus.extracted 99)) :=
  ⟨by decide,
    c1_amended doneState InterviewPhase.background 0 "role" (some "engineer")
      ProfileFieldStatus.extracted 99 (by decide)⟩

/-- C4 counterexample: the invariant "isComplete iff phase = wrap-up"
holds on the sample in-progress state but is destroyed by
`setInterviewPhase wrap-up`, which moves the phase to wrap-up while
leaving `isComplete` false. -/
theorem c4_counterexample :
    sampleState.questionProgress.isComplete = false ∧
    sampleState.questionProgress.currentPhase ≠ InterviewPhase.wrapUp ∧
    (setInterviewPhase InterviewPhase.wrapUp sampleState).questionProgress.currentPhase =
      InterviewPhase.wrapUp ∧
    (setInterviewPhase InterviewPhase.wrapUp sampleState).questionProgress.isComplete = false := by
  decide

/-- C4 amended: the invariant "isComplete = true iff currentPhase =
wrap-up" is established by `completeInterview` and preserved by
`markQuestionAsked`, but `setInterviewPhase` does not preserve it: it
sets the phase to an arbitrary target while leaving `isComplete`
untouched. -/
theorem c4_amended (s : ChatState) (i : Nat) (p : InterviewPhase) :
    ((completeInterview s).questionProgress.isComplete = true ↔
      (completeInterview s).questionProgress.currentPhase = InterviewPhase.wrapUp) ∧
    ((s.questionProgress.isComplete = true ↔
        s.questionProgress.currentPhase = InterviewPhase.wrapUp) →
      ((markQuestionAsked i s).questionProgress.isComplete = true ↔
        (markQuestionAsked i s).questionProgress.currentPhase = InterviewPhase.wrapUp)) ∧
    (setInterviewPhase p s).questionProgress.isComplete = s.questionProgress.isComplete ∧
    (setInterviewPhase p s).questionProgress.currentPhase = p := by
  refine ⟨by simp [completeInterview], ?_, rfl, rfl⟩
  intro hinv
  unfold markQuestionAsked
  split
  · exact hinv
  · simpa using hinv

theorem c4_amended_witness :
    ((completeInterview sampleState).questionProgress.isComplete = true ↔
      (completeInterview sampleState).questionProgress.currentPhase = InterviewPhase.wrapUp) ∧
    ((markQuestionAsked 1 sampleState).questionProgress.isComplete = true ↔
      (markQuestionAsked 1 sampleState).questionProgress.currentPhase = InterviewPhase.wrapUp) :=
  ⟨(c4_amended sampleState 1 InterviewPhase.background).1,
    (c4_amended sampleState 1 InterviewPhase.background).2.1 (by decide)⟩

/-- C7: a profile update whose fieldId matches no existing entry leaves
the field list entirely unchanged, and in fact leaves the whole session
state unchanged; the unknown update is silently dropped. -/
theorem c7_unknown_field_noop (s : ChatState) (prof : ParticipantProfile)
    (fieldId : String) (value : Option String) (status : ProfileFieldStatus) (now : Nat)
    (hp : s.participantProfile = some prof)
    (h : ∀ f ∈ prof.fields, f.fieldId ≠ fieldId) :
    applyUpdate fieldId value status now prof.fields = prof.fields ∧
    updateProfileField fieldId value status now s = s := by
  have hfields := applyUpdate_not_mem fieldId value status now prof.fields h
  refine ⟨hfields, ?_⟩
  have hprof : profWithUpdate fieldId value status now prof = prof := by
    unfold profWithUpdate
    rw [hfields]
  rw [updateProfileField_eq, hp, Option.map_some', hprof, ← hp]

theorem c7_witness :
    applyUpdate "nonexistent_field" (some "x") ProfileFieldStatus.extracted 42
        sampleProfile.fields = sampleProfile.fields ∧
    updateProfileField "nonexistent_field" (some "x") ProfileFieldStatus.extracted 42
        sampleState = sampleState :=
  c7_unknown_field_noop sampleState sampleProfile "nonexistent_field" (some "x")
    ProfileFieldStatus.extracted 42 (by decide) (by decide)

theorem foldl_applyUpdate_cons (now : Nat) (us : List (String × Option String × ProfileFieldStatus))
    (f : ProfileFieldValue) (fs : List ProfileFieldValue)
    (hf : f.fieldId ∉ us.map (fun u => u.1)) :
    us.foldl (fun l u => applyUpdate u.1 u.2.1 u.2.2 now l) (f :: fs) =
      f :: us.foldl (fun l u => applyUpdate u.1 u.2.1 u.2.2 now l) fs := by
  induction us generalizing fs with
  | nil => rfl
  | cons u us ih =>
    have hne : f.fieldId ≠ u.1 := by
      intro hcontra
      exact hf (by simp [hcontra])
    have htl : f.fieldId ∉ us.map (fun u => u.1) := by
      intro hcontra
      exact hf (by simp [hcontra])
    show us.foldl _ (applyUpdate u.1 u.2.1 u.2.2 now (f :: fs)) = _
    have hstep : applyUpdate u.1 u.2.1 u.2.2 now (f :: fs) =
        f :: applyUpdate u.1 u.2.1 u.2.2 now fs := by
      unfold applyUpdate
      simp [hne]
    rw [hstep]
    exact ih _ htl

theorem foldl_applyUpdate_zip (now : Nat) (us : List (String × Option String × ProfileFieldStatus)) :
    ∀ fs : List ProfileFieldValue,
      (fs.map ProfileFieldValue.fieldId).Nodup →
      us.map (fun u => u.1) = fs.map ProfileFieldValue.fieldId →
      us.foldl (fun l u => applyUpdate u.1 u.2.1 u.2.2 now l) fs =
        List.zipWith (fun f u => ProfileFieldValue.mk f.fieldId u.2.1 u.2.2 (some now)) fs us := by
  induction us with
  | nil =>
    intro fs _ hu
    have : fs = [] := by
      cases fs with
      | nil => rfl
      | cons f fs => simp at hu
    subst this
    rfl
  | cons u us ih =>
    intro fs hn hu
    cases fs with
    | nil => simp at hu
    | cons f fs =>
      simp only [List.map_cons, List.cons.injEq] at hu
      obtain ⟨hid, htl⟩ := hu
      simp only [List.map_cons, List.nodup_cons] at hn
      obtain ⟨hfnot, hntl⟩ := hn
      show us.foldl _ (applyUpdate u.1 u.2.1 u.2.2 now (f :: fs)) = _
      have hstep : applyUpdate u.1 u.2.1 u.2.2 now (f :: fs) =
          ProfileFieldValue.mk f.fieldId u.2.1 u.2.2 (some now) ::
            applyUpdate u.1 u.2.1 u.2.2 now fs := by
        unfold applyUpdate
        simp [← hid]
      have hrest : applyUpdate u.1 u.2.1 u.2.2 now fs = fs := by
        apply applyUpdate_not_mem
        intro g hg hgid
        exact hfnot (by rw [← hid, ← hgid]; exact List.mem_map_of_mem _ hg)
      rw [hstep, hrest]
      rw [foldl_applyUpdate_cons now us _ fs (by simpa [htl] using hfnot)]
      rw [ih fs hntl htl]
      rfl

theorem foldl_updateProfileField (now : Nat)
    (us : List (String × Option String × ProfileFieldStatus)) :
    ∀ (s : ChatState) (prof : ParticipantProfile), s.participantProfile = some prof →
      (us.foldl (fun st u => updateProfileField u.1 u.2.1 u.2.2 now st) s).participantProfile =
        some { prof with fields := us.foldl (fun l u => applyUpdate u.1 u.2.1 u.2.2 now l) prof.fields } := by
  induction us with
  | nil =>
    intro s prof hp
    simp only [List.foldl_nil, hp]
  | cons u us ih =>
    intro s prof hp
    have hp' : (updateProfileField u.1 u.2.1 u.2.2 now s).participantProfile =
        some (profWithUpdate u.1 u.2.1 u.2.2 now prof) := by
      rw [updateProfileField_eq, hp]
      rfl
    exact ih (updateProfileField u.1 u.2.1 u.2.2 now s) (profWithUpdate u.1 u.2.1 u.2.2 now prof) hp'

/-- C3: initializing a profile from a schema of N fields yields exactly
N pending entries in schema order, and afterwards applying one
`updateProfileField` per schema field id (in schema order, with
declared value and status) yields exactly N entries carrying the
declared values and statuses, with nothing added, lost or duplicated. -/
theorem c3_roundtrip (schema : List ProfileField)
    (us : List (String × Option String × ProfileFieldStatus)) (pid : String)
    (t0 now : Nat) (s : ChatState)
    (hn : (schema.map ProfileField.id).Nodup)
    (hu : us.map (fun u => u.1) = schema.map ProfileField.id) :
    ((initializeProfile schema pid t0 s).participantProfile.map ParticipantProfile.fields) =
      some (schema.map (fun field => ProfileFieldValue.mk field.id none ProfileFieldStatus.pending none)) ∧
    (schema.map (fun field => ProfileFieldValue.mk field.id none ProfileFieldStatus.pending none)).length =
      schema.length ∧
    ((us.foldl (fun st u => updateProfileField u.1 u.2.1 u.2.2 now st)
        (initializeProfile schema pid t0 s)).participantProfile.map ParticipantProfile.fields) =
      some (List.zipWith (fun f u => ProfileFieldValue.mk f.id u.2.1 u.2.2 (some now)) schema us) ∧
    (List.zipWith (fun f u => ProfileFieldValue.mk f.id u.2.1 u.2.2 (some now)) schema us).length =
      schema.length := by
  have hulen : us.length = schema.length := by
    have := congrArg List.length hu
    simpa using this
  refine ⟨rfl, by simp, ?_, ?_⟩
  · have hp0 : (initializeProfile schema pid t0 s).participantProfile =
        some { id := pid
               fields := schema.map (fun field => ProfileFieldValue.mk field.id none ProfileFieldStatus.pending none)
               rawContext := ""
               timestamp := t0 } := rfl
    rw [foldl_updateProfileField now us _ _ hp0]
    have hids : (schema.map (fun field => ProfileFieldValue.mk field.id none ProfileFieldStatus.pending none)).map ProfileFieldValue.fieldId =
        schema.map ProfileField.id := by
      rw [List.map_map]
      rfl
    have hzip := foldl_applyUpdate_zip now us
      (schema.map (fun field => ProfileFieldValue.mk field.id none ProfileFieldStatus.pending none))
      (by rw [hids]; exact hn) (by rw [hids]; exact hu)
    simp only [Option.map_some']
    rw [hzip]
    rw [List.zipWith_map_left]
  · rw [List.length_zipWith, hulen, min_self]

theorem c3_witness :
    ((([("role", (some "engineer", ProfileFieldStatus.extracted)),
        ("ai_usage", (some "Daily", ProfileFieldStatus.vague))] :
          List (String × Option String × ProfileFieldStatus)).foldl
        (fun st u => updateProfileField u.1 u.2.1 u.2.2 77 st)
        (initializeProfile
          [{ id := "role", label := "Current Role", extractionHint := "job title", required := true, options := none },
           { id := "ai_usage", label := "AI Tool Usage", extractionHint := "frequency", required := true, options := none }]
          "p-9" 5 sampleState)).participantProfile.map ParticipantProfile.fields) =
      some [ProfileFieldValue.mk "role" (some "engineer") ProfileFieldStatus.extracted (some 77),
            ProfileFieldValue.mk "ai_usage" (some "Daily") ProfileFieldStatus.vague (some 77)] :=
  ((c3_roundtrip
      [{ id := "role", label := "Current Role", extractionHint := "job title", required := true, options := none },
       { id := "ai_usage", label := "AI Tool Usage", extractionHint := "frequency", required := true, options := none }]
      [("role", (some "engineer", ProfileFieldStatus.extracted)),
       ("ai_usage", (some "Daily", ProfileFieldStatus.vague))]
      "p-9" 5 77 sampleState (by decide) (by decide)).2.2.1)

theorem updateProfileField_behaviorData (fieldId : String) (value : Option String)
    (status : ProfileFieldStatus) (now : Nat) (s : ChatState) :
    (updateProfileField fieldId value status now s).behaviorData = s.behaviorData := by
  rw [updateProfileField_eq]

theorem updateProfileField_questionProgress (fieldId : String) (value : Option String)
    (status : ProfileFieldStatus) (now : Nat) (s : ChatState) :
    (updateProfileField fieldId value status now s).questionProgress = s.questionProgress := by
  rw [updateProfileField_eq]

theorem setProfileRawContext_behaviorData (context : String) (s : ChatState) :
    (setProfileRawContext context s).behaviorData = s.behaviorData := by
  obtain ⟨pp, qp, hist, bd, ce⟩ := s
  cases pp <;> rfl

theorem setProfileRawContext_questionProgress (context : String) (s : ChatState) :
    (setProfileRawContext context s).questionProgress = s.questionProgress := by
  obtain ⟨pp, qp, hist, bd, ce⟩ := s
  cases pp <;> rfl

theorem applyProfileUpdates_behaviorData (r : AIInterviewResponse) (now : Nat) (s : ChatState) :
    (applyProfileUpdates r now s).behaviorData = s.behaviorData := by
  unfold applyProfileUpdates
  generalize r.profileUpdates = us
  induction us generalizing s with
  | nil => rfl
  | cons u us ih =>
    rw [List.foldl_cons]
    rw [ih (updateProfileField u.fieldId u.value u.status now s)]
    exact updateProfileField_behaviorData _ _ _ _ _

theorem applyProfileUpdates_questionProgress (r : AIInterviewResponse) (now : Nat) (s : ChatState) :
    (applyProfileUpdates r now s).questionProgress = s.questionProgress := by
  unfold applyProfileUpdates
  generalize r.profileUpdates = us
  induction us generalizing s with
  | nil => rfl
  | cons u us ih =>
    rw [List.foldl_cons]
    rw [ih (updateProfileField u.fieldId u.value u.status now s)]
    exact updateProfileField_questionProgress _ _ _ _ _

theorem applyTurnProfileStep_behaviorData (s0 : ChatState) (text : String)
    (r : AIInterviewResponse) (now : Nat) (s : ChatState) :
    (applyTurnProfileStep s0 text r now s).behaviorData = s.behaviorData := by
  unfold applyTurnProfileStep
  split
  · split
    · rw [setProfileRawContext_behaviorData]
      exact applyProfileUpdates_behaviorData _ _ _
    · exact applyProfileUpdates_behaviorData _ _ _
  · rfl

theorem applyTurnProfileStep_questionProgress (s0 : ChatState) (text : String)
    (r : AIInterviewResponse) (now : Nat) (s : ChatState) :
    (applyTurnProfileStep s0 text r now s).questionProgress = s.questionProgress := by
  unfold applyTurnProfileStep
  split
  · split
    · rw [setProfileRawContext_questionProgress]
      exact applyProfileUpdates_questionProgress _ _ _
    · exact applyProfileUpdates_questionProgress _ _ _
  · rfl

theorem applyPhaseStep_behaviorData (r : AIInterviewResponse) (s : ChatState) :
    (applyPhaseStep r s).behaviorData = s.behaviorData := by
  unfold applyPhaseStep
  cases r.phaseTransition <;> rfl

theorem applyPhaseStep_currentPhase (r : AIInterviewResponse) (s : ChatState) :
    (applyPhaseStep r s).questionProgress.currentPhase =
      r.phaseTransition.getD s.questionProgress.currentPhase := by
  unfold applyPhaseStep
  cases r.phaseTransition <;> rfl

theorem markQuestionAsked_behaviorData (i : Nat) (s : ChatState) :
    (markQuestionAsked i s).behaviorData = s.behaviorData := by
  unfold markQuestionAsked
  split <;> rfl

theorem markQuestionAsked_currentPhase (i : Nat) (s : ChatState) :
    (markQuestionAsked i s).questionProgress.currentPhase =
      s.questionProgress.currentPhase := by
  unfold markQuestionAsked
  split <;> rfl

theorem applyQuestionStep_behaviorData (r : AIInterviewResponse) (s : ChatState) :
    (applyQuestionStep r s).behaviorData = s.behaviorData := by
  unfold applyQuestionStep
  cases r.questionAddressed with
  | none => rfl
  | some i => exact markQuestionAsked_behaviorData i s

theorem applyQuestionStep_currentPhase (r : AIInterviewResponse) (s : ChatState) :
    (applyQuestionStep r s).questionProgress.currentPhase =
      s.questionProgress.currentPhase := by
  unfold applyQuestionStep
  cases r.questionAddressed with
  | none => rfl
  | some i => exact markQuestionAsked_currentPhase i s

theorem applyConcludeStep_behaviorData (r : AIInterviewResponse) (s : ChatState) :
    (applyConcludeStep r s).behaviorData = s.behaviorData := by
  unfold applyConcludeStep
  split <;> rfl

theorem addMessage_messagesPerTopic (msg : InterviewMessage) (s : ChatState) :
    (addMessage msg s).behaviorData.messagesPerTopic =
      recSet s.behaviorData.messagesPerTopic (phaseKey s.questionProgress.currentPhase)
        (recGet s.behaviorData.messagesPerTopic (phaseKey s.questionProgress.currentPhase) + 1) := rfl

theorem recGet_double_set (m : List (String × Nat)) (k1 k2 key : String) :
    recGet (recSet (recSet m k1 (recGet m k1 + 1)) k2
        (recGet (recSet m k1 (recGet m k1 + 1)) k2 + 1)) key =
      recGet m key + (if key = k1 then 1 else 0) + (if key = k2 then 1 else 0) := by
  by_cases h2 : key = k2
  · subst h2
    rw [recGet_recSet_self]
    by_cases h1 : key = k1
    · subst h1
      rw [recGet_recSet_self]
      simp
    · rw [recGet_recSet_ne _ _ _ _ (fun hc => h1 hc.symm)]
      simp [h1]
  · rw [recGet_recSet_ne _ _ _ _ (fun hc => h2 hc.symm)]
    by_cases h1 : key = k1
    · subst h1
      rw [recGet_recSet_self]
      simp [h2]
    · rw [recGet_recSet_ne _ _ _ _ (fun hc => h1 hc.symm)]
      simp [h1, h2]

theorem handleSend_messagesPerTopic (s0 : ChatState) (text : String)
    (resp : Option AIInterviewResponse) (userMsgId ctxId aiMsgId : String)
    (tUser tCtx tAi now : Nat) (h : jsTrimString text ≠ "") :
    (handleSend s0 text resp userMsgId ctxId aiMsgId tUser tCtx tAi now).behaviorData.messagesPerTopic =
      recSet
        (recSet s0.behaviorData.messagesPerTopic (phaseKey s0.questionProgress.currentPhase)
          (recGet s0.behaviorData.messagesPerTopic (phaseKey s0.questionProgress.currentPhase) + 1))
        (phaseKey (postPhase s0 resp))
        (recGet
          (recSet s0.behaviorData.messagesPerTopic (phaseKey s0.questionProgress.currentPhase)
            (recGet s0.behaviorData.messagesPerTopic (phaseKey s0.questionProgress.currentPhase) + 1))
          (phaseKey (postPhase s0 resp)) + 1) := by
  unfold handleSend
  rw [if_neg h]
  cases resp with
  | none => rfl
  | some r =>
    rw [applyConcludeStep_behaviorData, addMessage_messagesPerTopic]
    have hphase :
        (applyQuestionStep r (applyPhaseStep r (applyTurnProfileStep s0 text r now
            (appendContext text ContextSource.text ctxId tCtx
              (addMessage { id := userMsgId, role := MessageRole.user, content := text, timestamp := tUser } s0))))).questionProgress.currentPhase =
          r.phaseTransition.getD s0.questionProgress.currentPhase := by
      rw [applyQuestionStep_currentPhase, applyPhaseStep_currentPhase,
        applyTurnProfileStep_questionProgress]
      rfl
    have hbd :
        (applyQuestionStep r (applyPhaseStep r (applyTurnProfileStep s0 text r now
            (appendContext text ContextSource.text ctxId tCtx
              (addMessage { id := userMsgId, role := MessageRole.user, content := text, timestamp := tUser } s0))))).behaviorData =
          (addMessage { id := userMsgId, role := MessageRole.user, content := text, timestamp := tUser } s0).behaviorData := by
      rw [applyQuestionStep_behaviorData, applyPhaseStep_behaviorData,
        applyTurnProfileStep_behaviorData]
      rfl
    rw [hphase, hbd]
    rfl

/-- C5 counterexample: one processed turn that declares a phase
transition increments the messages-per-phase counter twice, not once —
once for the participant message under the pre-turn phase and once for
the AI message under the new phase. -/
theorem c5_counterexample :
    recGet ((handleSend sampleState "Tell me more about that" (some c5resp)
          "m1" "c1" "m2" 1 2 3 4).behaviorData.messagesPerTopic) "core-questions" =
        recGet sampleState.behaviorData.messagesPerTopic "core-questions" + 1 ∧
    recGet ((handleSend sampleState "Tell me more about that" (some c5resp)
          "m1" "c1" "m2" 1 2 3 4).behaviorData.messagesPerTopic) "exploration" =
        recGet sampleState.behaviorData.messagesPerTopic "exploration" + 1 := by
  decide

/-- C5 amended: each processed turn increments the messages-per-phase
counter exactly twice — once for the participant message, keyed by the
phase at the moment that message is appended (before any transition of
the turn), and once for the AI (or fallback) message, keyed by the
phase after the transition declared in the turn, if any, has been
applied.  Every other key is untouched. -/
theorem c5_amended (s0 : ChatState) (text : String) (resp : Option AIInterviewResponse)
    (userMsgId ctxId aiMsgId : String) (tUser tCtx tAi now : Nat)
    (h : jsTrimString text ≠ "") (key : String) :
    recGet ((handleSend s0 text resp userMsgId ctxId aiMsgId tUser tCtx tAi now).behaviorData.messagesPerTopic) key =
      recGet s0.behaviorData.messagesPerTopic key
      + (if key = phaseKey s0.questionProgress.currentPhase then 1 else 0)
      + (if key = phaseKey (postPhase s0 resp) then 1 else 0) := by
  rw [handleSend_messagesPerTopic s0 text resp userMsgId ctxId aiMsgId tUser tCtx tAi now h]
  exact recGet_double_set s0.behaviorData.messagesPerTopic
    (phaseKey s0.questionProgress.currentPhase) (phaseKey (postPhase s0 resp)) key

theorem c5_amended_witness :
    recGet ((handleSend sampleState "Tell me more" (some c5resp)
          "m1" "c1" "m2" 1 2 3 4).behaviorData.messagesPerTopic) "exploration" =
      recGet sampleState.behaviorData.messagesPerTopic "exploration"
      + (if ("exploration" : String) = phaseKey sampleState.questionProgress.currentPhase then 1 else 0)
      + (if ("exploration" : String) = phaseKey (postPhase sampleState (some c5resp)) then 1 else 0) :=
  c5_amended sampleState "Tell me more" (some c5resp) "m1" "c1" "m2" 1 2 3 4
    (by decide) "exploration"

theorem savePOST_ok_eq (auth : SaveAuth) (clientData : ClientInterview) (now : Nat)
    (rec : StoredInterview) (hok : savePOST auth clientData now = Except.ok rec) :
    rec = buildInterview clientData now := by
  unfold savePOST at hok
  split at hok
  · injection hok
  · split at hok
    · injection hok
    · split at hok
      · injection hok
      · split at hok
        · injection hok
        · split at hok
          · injection hok
          · injection hok with h'
            exact h'.symm

/-- C8: the persisted record's completedAt and status are server-assigned
(completedAt = server time, status = completed), and the whole outcome of
the save route is invariant under any change of the client-supplied
completedAt and status fields. -/
theorem c8_server_assigned (auth : SaveAuth) (clientData : ClientInterview) (now : Nat)
    (x : Option Nat) (y : Option InterviewStatus) :
    savePOST auth { clientData with completedAt := x, status := y } now =
      savePOST auth clientData now ∧
    (∀ rec : StoredInterview, savePOST auth clientData now = Except.ok rec →
      rec.completedAt = now ∧ rec.status = InterviewStatus.completed) := by
  constructor
  · rfl
  · intro rec hok
    rw [savePOST_ok_eq auth clientData now rec hok]
    exact ⟨rfl, rfl⟩

theorem c8_witness :
    savePOST sampleAuth { sampleClient with completedAt := some 5, status := some InterviewStatus.inProgress } 1000 =
      savePOST sampleAuth sampleClient 1000 ∧
    ((buildInterview sampleClient 1000).completedAt = 1000 ∧
      (buildInterview sampleClient 1000).status = InterviewStatus.completed) :=
  ⟨(c8_server_assigned sampleAuth sampleClient 1000 (some 5) (some InterviewStatus.inProgress)).1,
    (c8_server_assigned sampleAuth sampleClient 1000 (some 5) (some InterviewStatus.inProgress)).2
      (buildInterview sampleClient 1000) rfl⟩

theorem buildInterview_createdAt (clientData : ClientInterview) (now : Nat) :
    (buildInterview clientData now).createdAt =
      match clientData.createdAt with
      | some t => if t ≠ 0 ∧ t < now then t else now
      | none => now := rfl

/-- C10: every accepted save yields createdAt ≤ completedAt; a
client-supplied createdAt is kept only when it is strictly before the
server's current time (and nonzero, by JavaScript truthiness), and a
client createdAt that is not strictly in the past is replaced by the
server time, which also becomes completedAt. -/
theorem c10_timestamps (auth : SaveAuth) (clientData : ClientInterview) (now : Nat)
    (rec : StoredInterview) (hok : savePOST auth clientData now = Except.ok rec) :
    rec.createdAt ≤ rec.completedAt ∧
    rec.completedAt = now ∧
    (rec.createdAt ≠ now → clientData.createdAt = some rec.createdAt ∧ rec.createdAt < now) ∧
    (∀ t, clientData.createdAt = some t → ¬ t < now → rec.createdAt = now) := by
  rw [savePOST_ok_eq auth clientData now rec hok]
  refine ⟨?_, rfl, ?_, ?_⟩
  · show (buildInterview clientData now).createdAt ≤ now
    rw [buildInterview_createdAt]
    cases hct : clientData.createdAt with
    | none => exact le_refl now
    | some t =>
      show (if t ≠ 0 ∧ t < now then t else now) ≤ now
      by_cases hcond : t ≠ 0 ∧ t < now
      · rw [if_pos hcond]
        exact le_of_lt hcond.2
      · rw [if_neg hcond]
  · rw [buildInterview_createdAt]
    cases hct : clientData.createdAt with
    | none => intro hne; exact absurd rfl hne
    | some t =>
      show (if t ≠ 0 ∧ t < now then t else now) ≠ now →
        some t = some (if t ≠ 0 ∧ t < now then t else now) ∧
          (if t ≠ 0 ∧ t < now then t else now) < now
      by_cases hcond : t ≠ 0 ∧ t < now
      · rw [if_pos hcond]
        intro _
        exact ⟨rfl, hcond.2⟩
      · rw [if_neg hcond]
        intro hne
        exact absurd rfl hne
  · intro t hct hnl
    rw [buildInterview_createdAt, hct]
    show (if t ≠ 0 ∧ t < now then t else now) = now
    exact if_neg (fun hc => hnl hc.2)

theorem c10_witness :
    (buildInterview sampleClient 1000).createdAt ≤ (buildInterview sampleClient 1000).completedAt ∧
    (buildInterview sampleClient 1000).completedAt = 1000 :=
  ⟨(c10_timestamps sampleAuth sampleClient 1000 (buildInterview sampleClient 1000) rfl).1,
    (c10_timestamps sampleAuth sampleClient 1000 (buildInterview sampleClient 1000) rfl).2.1⟩

/-- C6: the aggregate-synthesis gate succeeds exactly when at least two
stored interviews carry a non-null per-session synthesis; with zero or
one it returns an insufficient-data rejection; and on success it hands
the full list of those syntheses to the provider. -/
theorem c6_aggregate_quorum (interviews : List StoredInterview) :
    ((∃ l, aggregateCheck interviews = Except.ok l) ↔
      2 ≤ (interviews.filterMap StoredInterview.synthesis).length) ∧
    (∀ l, aggregateCheck interviews = Except.ok l →
      l = interviews.filterMap StoredInterview.synthesis) := by
  have hle : (interviews.filterMap StoredInterview.synthesis).length ≤ interviews.length :=
    List.length_filterMap_le _ _
  constructor
  · unfold aggregateCheck
    by_cases h1 : interviews.length < 2
    · rw [if_pos h1]
      constructor
      · rintro ⟨l, hl⟩
        injection hl
      · intro hge
        exact absurd hge (by omega)
    · rw [if_neg h1]
      by_cases h2 : (interviews.filterMap StoredInterview.synthesis).length < 2
      · rw [if_pos h2]
        constructor
        · rintro ⟨l, hl⟩
          injection hl
        · intro hge
          exact absurd hge (by omega)
      · rw [if_neg h2]
        constructor
        · intro _
          omega
        · intro _
          exact ⟨_, rfl⟩
  · intro l hl
    unfold aggregateCheck at hl
    split at hl
    · injection hl
    · split at hl
      · injection hl
      · injection hl with h'
        exact h'.symm

theorem c6_witness :
    (∃ l, aggregateCheck [di1, di2] = Except.ok l) ∧
    [sampleSynth, sampleSynth] = [di1, di2].filterMap StoredInterview.synthesis :=
  ⟨(c6_aggregate_quorum [di1, di2]).1.mpr (by decide),
    (c6_aggregate_quorum [di1, di2]).2 [sampleSynth, sampleSynth] rfl⟩

theorem find?_congr_pred {α : Type} (p q : α → Bool) (h : ∀ x, p x = q x) :
    ∀ l : List α, l.find? p = l.find? q := by
  intro l
  induction l with
  | nil => rfl
  | cons a l ih =>
    by_cases hp : p a
    · rw [List.find?_cons_of_pos _ hp, List.find?_cons_of_pos _ (by rw [← h a]; exact hp)]
    · rw [List.find?_cons_of_neg _ hp, ih,
        List.find?_cons_of_neg _ (by rw [← h a]; simpa using hp)]

theorem takeBalanced_cons (oc cc ch : Char) (rest : List Char) (d : Int) :
    takeBalanced oc cc (ch :: rest) d =
      if (if ch = oc then d + 1 else if ch = cc then d - 1 else d) = 0 then some [ch]
      else (takeBalanced oc cc rest
          (if ch = oc then d + 1 else if ch = cc then d - 1 else d)).map (fun span => ch :: span) := by
  show (if (if ch = oc then d + 1 else if ch = cc then d - 1 else d) = 0 then some [ch]
        else match takeBalanced oc cc rest (if ch = oc then d + 1 else if ch = cc then d - 1 else d) with
             | some span => some (ch :: span)
             | none => none) = _
  by_cases h0 : (if ch = oc then d + 1 else if ch = cc then d - 1 else d) = 0
  · rw [if_pos h0, if_pos h0]
  · rw [if_neg h0, if_neg h0]
    cases takeBalanced oc cc rest (if ch = oc then d + 1 else if ch = cc then d - 1 else d) <;> rfl

theorem balance_cons (oc cc ch : Char) (hne : oc ≠ cc) (d : Int) (xs : List Char) :
    d + (((ch :: xs).count oc : Int)) - ((ch :: xs).count cc : Int) =
      (if ch = oc then d + 1 else if ch = cc then d - 1 else d)
        + (xs.count oc : Int) - (xs.count cc : Int) := by
  by_cases h1 : ch = oc
  · have hocc : (ch :: xs).count oc = xs.count oc + 1 := by
      rw [List.count_cons]
      simp [h1]
    have hccc : (ch :: xs).count cc = xs.count cc := by
      rw [List.count_cons]
      have : ¬ (ch == cc) = true := by
        simp [h1]
        intro hc
        exact hne (h1 ▸ hc)
      simp [this]
    rw [hocc, hccc, if_pos h1]
    push_cast
    ring
  · by_cases h2 : ch = cc
    · have hocc : (ch :: xs).count oc = xs.count oc := by
        rw [List.count_cons]
        simp [h1]
      have hccc : (ch :: xs).count cc = xs.count cc + 1 := by
        rw [List.count_cons]
        simp [h2]
      rw [hocc, hccc, if_neg h1, if_pos h2]
      push_cast
      ring
    · have hocc : (ch :: xs).count oc = xs.count oc := by
        rw [List.count_cons]
        simp [h1]
      have hccc : (ch :: xs).count cc = xs.count cc := by
        rw [List.count_cons]
        simp [h2]
      rw [hocc, hccc, if_neg h1, if_neg h2]

theorem find?_range_succ_shift (p : Nat → Bool) (n : Nat) (hp0 : ¬ p 0 = true) :
    (List.range (n + 1)).find? p =
      ((List.range n).find? (fun k => p (k + 1))).map (fun k => k + 1) := by
  rw [List.range_succ_eq_map]
  rw [List.find?_cons_of_neg _ hp0]
  rw [List.find?_map]
  rfl

theorem find?_range_of_pos {p : Nat → Bool} (n : Nat) (hp : p 0 = true) :
    (List.range (n + 1)).find? p = some 0 := by
  rw [List.range_succ_eq_map, List.find?_cons_of_pos _ hp]

theorem takeBalanced_eq_find (oc cc : Char) (hne : oc ≠ cc) :
    ∀ (l : List Char) (d : Int),
      takeBalanced oc cc l d =
        ((List.range (l.length + 1)).find?
            (fun k => decide (0 < k) &&
              decide (d + ((l.take k).count oc : Int) - ((l.take k).count cc : Int) = 0))).map
          (fun k => l.take k) := by
  intro l
  induction l with
  | nil => intro d; rfl
  | cons ch rest ih =>
    intro d
    rw [takeBalanced_cons]
    have hlen : (ch :: rest).length + 1 = rest.length + 1 + 1 := rfl
    rw [hlen]
    rw [find?_range_succ_shift _ _ (by simp)]
    rw [Option.map_map]
    have hbal0 : d + (((ch :: rest).take (0 + 1)).count oc : Int)
        - (((ch :: rest).take (0 + 1)).count cc : Int) =
        (if ch = oc then d + 1 else if ch = cc then d - 1 else d) := by
      have hb := balance_cons oc cc ch hne d ([] : List Char)
      simp only [List.count_nil] at hb
      have hone : (ch :: rest).take (0 + 1) = ch :: ([] : List Char) := rfl
      rw [hone, hb]
      simp
    by_cases h0 : (if ch = oc then d + 1 else if ch = cc then d - 1 else d) = 0
    · rw [if_pos h0]
      have h1 : (fun k => decide (0 < k + 1) &&
          decide (d + (((ch :: rest).take (k + 1)).count oc : Int)
            - (((ch :: rest).take (k + 1)).count cc : Int) = 0)) 0 = true := by
        show (decide (0 < 0 + 1) &&
          decide (d + (((ch :: rest).take (0 + 1)).count oc : Int)
            - (((ch :: rest).take (0 + 1)).count cc : Int) = 0)) = true
        rw [hbal0]
        simp [h0]
      rw [find?_range_of_pos _ h1]
      rfl
    · rw [if_neg h0]
      rw [ih (if ch = oc then d + 1 else if ch = cc then d - 1 else d)]
      rw [Option.map_map]
      have hQP : ∀ k, (decide (0 < k) &&
            decide ((if ch = oc then d + 1 else if ch = cc then d - 1 else d)
              + ((rest.take k).count oc : Int) - ((rest.take k).count cc : Int) = 0)) =
          (decide (0 < k + 1) &&
            decide (d + (((ch :: rest).take (k + 1)).count oc : Int)
              - (((ch :: rest).take (k + 1)).count cc : Int) = 0)) := by
        intro k
        cases k with
        | zero =>
          rw [hbal0]
          have hz : ((rest.take 0).count oc : Int) = 0 := rfl
          have hz2 : ((rest.take 0).count cc : Int) = 0 := rfl
          rw [hz, hz2]
          simp [h0]
        | succ k =>
          have htake : (ch :: rest).take (k + 1 + 1) = ch :: rest.take (k + 1) := rfl
          rw [htake]
          rw [balance_cons oc cc ch hne d (rest.take (k + 1))]
          simp
      rw [find?_congr_pred _ _ hQP (List.range (rest.length + 1))]
      congr 1

theorem takeBalanced_eq_specSpan (oc cc : Char) (hne : oc ≠ cc) (l : List Char) :
    takeBalanced oc cc l 0 = specSpan oc cc l := by
  rw [takeBalanced_eq_find oc cc hne l 0]
  unfold specSpan firstBalanced
  rw [find?_congr_pred _ _ ?h (List.range (l.length + 1))]
  case h =>
    intro k
    have : (0 + ((l.take k).count oc : Int) - ((l.take k).count cc : Int) = 0) ↔
        ((l.take k).count oc = (l.take k).count cc) := by
      omega
    rw [decide_eq_decide.mpr this]

/-- C9 counterexample: on the input consisting of an unmatched opening
brace followed by a balanced bracket pair, the stripped text contains
an opening bracket (at index 2) whose balanced closing counterpart
occurs later, and no earlier opener has one — yet `cleanJSON` returns
the whole text instead of that bracket span, because the bracket scan
is only attempted when the first bracket precedes every brace. -/
theorem c9_counterexample :
    cleanJSON (String.mk [obrace, ' ', '[', ' ', ']']) = String.mk [obrace, ' ', '[', ' ', ']'] ∧
    cleanChars (String.mk [obrace, ' ', '[', ' ', ']']).toList = [obrace, ' ', '[', ' ', ']'] ∧
    (cleanChars (String.mk [obrace, ' ', '[', ' ', ']']).toList).findIdx? (fun c => c = '[') = some 2 ∧
    takeBalanced '[' ']' (List.drop 2 (cleanChars (String.mk [obrace, ' ', '[', ' ', ']']).toList)) 0 =
      some ['[', ' ', ']'] ∧
    takeBalanced obrace cbrace (cleanChars (String.mk [obrace, ' ', '[', ' ', ']']).toList) 0 = none ∧
    String.mk [obrace, ' ', '[', ' ', ']'] ≠ String.mk ['[', ' ', ']'] := by
  decide

/-- C9 amended: after stripping code fences and trimming, `cleanJSON`
returns the span from the first opening bracket only when that bracket
precedes every brace and the bracket count balances; otherwise it
returns the span from the first brace when the brace count balances;
otherwise it returns the whole cleaned text ("{}" on empty input).
Each returned span is the shortest prefix, from its opener, on which
the counts of that opener and its closer agree — the function never
starts a span at a later opener of the other kind. -/
theorem c9_amended (text : String) : cleanJSON text = cleanJSONSpec text := by
  have hbr : ∀ l : List Char, takeBalanced '[' ']' l 0 = specSpan '[' ']' l :=
    takeBalanced_eq_specSpan '[' ']' (by decide)
  have hbc : ∀ l : List Char, takeBalanced obrace cbrace l 0 = specSpan obrace cbrace l :=
    takeBalanced_eq_specSpan obrace cbrace (by decide)
  unfold cleanJSON cleanJSONSpec
  simp only [hbr, hbc]

end OpenInterviewer
